import Mathlib

/-!
Verification development for the near-sign-verify token signing/verification
pipeline.  TypeScript sources are shallowly embedded: byte strings (JS
strings / Uint8Array) become `List Nat`, external primitives (SHA-256,
Ed25519, base58, base64/atob, JSON.parse, fetch, Date.now, randomness) become
parameters collected in an `Externals` structure, and each step of
`verify`/`sign` is translated function-by-function from the source.
-/

namespace NearSignVerify

/-- Byte strings (JS `string` contents / `Uint8Array`) are lists of byte
values. -/
abbrev Bytes := List Nat

/-- ASCII bytes of a string literal, used to embed the source's string
constants. -/
def asciiBytes (s : String) : Bytes := s.data.map Char.toNat

/-! ## Borsh primitives

The repository serializes with the external `borsh` npm package against
schemas it defines (`src/auth/authTokenSchema.ts`, the schema inside
`src/crypto/crypto.ts`).  The Borsh wire format is deterministic and fully
specified, so it is embedded concretely: `u32` is 4-byte little-endian,
`string` is a u32 length prefix followed by the bytes, a fixed `u8` array is
the raw bytes, and `option` is a 0/1 presence tag. -/

/-- 4-byte little-endian encoding of a `u32`. -/
def u32le (n : Nat) : Bytes :=
  [n % 256, n / 256 % 256, n / 65536 % 256, n / 16777216 % 256]

/-- Borsh `string`: u32 length prefix followed by the bytes. -/
def borshString (s : Bytes) : Bytes := u32le s.length ++ s

/-- Borsh `option "string"`: explicit presence flag, 0 for none and
1 followed by the string for some. -/
def borshOptionString : Option Bytes → Bytes
  | none => [0]
  | some s => 1 :: borshString s

/-! ## Data model (src/types.ts) -/

/-- `SignedPayload` (src/types.ts): the NEP-413 structure whose Borsh
representation, prepended with the TAG, is hashed and signed. -/
structure SignedPayload where
  message : Bytes
  nonce : Bytes
  recipient : Bytes
  callbackUrl : Option Bytes
deriving DecidableEq, Repr

/-- `NearAuthTokenPayload` (src/types.ts): the record Borsh-encoded into the
auth token string. -/
structure NearAuthTokenPayload where
  account_id : Bytes
  public_key : Bytes
  signature : Bytes
  signed_message_content : Bytes
  signed_nonce : Bytes
  signed_recipient : Bytes
  signed_callback_url : Option Bytes
  state : Option Bytes
  original_message_representation : Option Bytes
deriving DecidableEq, Repr

/-- `VerificationResult` (src/types.ts). -/
structure VerificationResult where
  accountId : Bytes
  publicKey : Bytes
  message : Bytes
  callbackUrl : Option Bytes
  state : Option Bytes
deriving DecidableEq, Repr

/-! ## Canonical payload codec (src/crypto/crypto.ts) -/

/-- The NEP-413 protocol tag, `2**31 + 413` (src/crypto/crypto.ts). -/
def TAG : Nat := 2147484061

/-- Borsh serialization of `SignedPayload` following
`signedPayloadBorshSchema` in src/crypto/crypto.ts: fields in the fixed
order message, nonce (32-byte u8 array, raw), recipient, optional
callbackUrl. -/
def serializeSignedPayload (p : SignedPayload) : Bytes :=
  borshString p.message ++ p.nonce ++ borshString p.recipient
    ++ borshOptionString p.callbackUrl

/-! ## Token codec (src/auth/authTokenSchema.ts) -/

/-- Borsh serialization of `NearAuthTokenPayload` following
`nearAuthTokenPayloadBorshSchema`, with optional fields normalized to
`null` by `prepareNearAuthTokenPayloadForBorsh`. -/
def serializeToken (t : NearAuthTokenPayload) : Bytes :=
  borshString t.account_id ++ borshString t.public_key
    ++ borshString t.signature ++ borshString t.signed_message_content
    ++ t.signed_nonce ++ borshString t.signed_recipient
    ++ borshOptionString t.signed_callback_url
    ++ borshOptionString t.state
    ++ borshOptionString t.original_message_representation

/-- Read a Borsh u32 (little-endian). -/
def readU32 : Bytes → Option (Nat × Bytes)
  | b0 :: b1 :: b2 :: b3 :: rest =>
      some (b0 + b1 * 256 + b2 * 65536 + b3 * 16777216, rest)
  | _ => none

/-- Read exactly `n` raw bytes. -/
def readBytesN (n : Nat) (b : Bytes) : Option (Bytes × Bytes) :=
  if n ≤ b.length then some (b.take n, b.drop n) else none

/-- Read a Borsh string. -/
def readString (b : Bytes) : Option (Bytes × Bytes) := do
  let (n, rest) ← readU32 b
  readBytesN n rest

/-- Read a Borsh `option "string"`. -/
def readOptionString : Bytes → Option (Option Bytes × Bytes)
  | 0 :: rest => some (none, rest)
  | 1 :: rest => (readString rest).map (fun sr => (some sr.1, sr.2))
  | _ => none

/-- Borsh deserialization of `NearAuthTokenPayload`; like
`borsh.deserialize`, fails unless the buffer is consumed exactly. -/
def deserializeToken (b : Bytes) : Option NearAuthTokenPayload := do
  let (aid, b) ← readString b
  let (pk, b) ← readString b
  let (sig, b) ← readString b
  let (smc, b) ← readString b
  let (nonce, b) ← readBytesN 32 b
  let (rcp, b) ← readString b
  let (cb, b) ← readOptionString b
  let (st, b) ← readOptionString b
  let (omr, b) ← readOptionString b
  if b.isEmpty then some ⟨aid, pk, sig, smc, nonce, rcp, cb, st, omr⟩
  else none

/-! ## Nonce manager (src/utils/nonce.ts) -/

/-- Default max age for nonce validation: 24 hours in milliseconds. -/
def DEFAULT_MAX_AGE : Nat := 24 * 60 * 60 * 1000

/-- The distinct failure modes of `validateNonce`. -/
inductive NonceFailure where
  | invalidLength
  | invalidTimestamp
  | futureNonce
  | expired
deriving DecidableEq, Repr

/-- Model of the regex `.replace(/^0+/, "")`: strip leading ASCII `'0'`
(byte 48) characters. -/
def stripLeadingZeros : Bytes → Bytes
  | 48 :: rest => stripLeadingZeros rest
  | b => b

/-- ASCII digit test. -/
def isDigitByte (b : Nat) : Bool := 48 ≤ b && b ≤ 57

/-- JS whitespace characters that `parseInt` skips (ASCII range). -/
def isSpaceByte (b : Nat) : Bool :=
  b == 32 || b == 9 || b == 10 || b == 11 || b == 12 || b == 13

/-- Value of a string of ASCII digits. -/
def digitsToNat (ds : Bytes) : Nat :=
  ds.foldl (fun acc d => acc * 10 + (d - 48)) 0

/-- Model of JS `parseInt(str, 10)` over ASCII bytes: skip leading
whitespace, read an optional sign, then the longest digit prefix; `none`
models `NaN` (no digits found). -/
def parseIntJS (s : Bytes) : Option Int :=
  let s1 := s.dropWhile isSpaceByte
  match s1 with
  | 45 :: rest =>
      let ds := rest.takeWhile isDigitByte
      if ds.isEmpty then none else some (-(digitsToNat ds : Int))
  | 43 :: rest =>
      let ds := rest.takeWhile isDigitByte
      if ds.isEmpty then none else some (digitsToNat ds : Int)
  | _ =>
      let ds := s1.takeWhile isDigitByte
      if ds.isEmpty then none else some (digitsToNat ds : Int)

/-- `validateNonce` (src/utils/nonce.ts), with the ambient `Date.now()`
passed explicitly as `now` (milliseconds): length check first, then the
leading 16 bytes are decoded, stripped of leading zeros and parsed with
`parseInt`; a `NaN` parse is an invalid timestamp; a negative age is a
future nonce; an age strictly greater than `maxAge` is expired. -/
def validateNonceRun (now : Int) (nonce : Bytes) (maxAge : Nat) :
    Except NonceFailure Unit :=
  if nonce.length ≠ 32 then .error .invalidLength
  else
    match parseIntJS (stripLeadingZeros (nonce.take 16)) with
    | none => .error .invalidTimestamp
    | some timestamp =>
      let age := now - timestamp
      if age < 0 then .error .futureNonce
      else if age > (maxAge : Int) then .error .expired
      else .ok ()

/-! ## External collaborators

The spec treats the cryptographic primitives, base58/base64 codecs,
JSON.parse, randomness and the fetch transport as external collaborators.
They are collected in one structure that the embedded pipeline is
parameterized over. -/

/-- Response of the fastnear ownership endpoint, as discriminated by
`verifyPublicKeyOwner` (src/auth/verify.ts): transport/HTTP/JSON failure,
a JSON body without an `account_ids` array, or an `account_ids` array. -/
inductive FetchResponse where
  | httpError
  | okMalformed
  | okAccounts (ids : List Bytes)
deriving DecidableEq, Repr

/-- The external primitives consumed by the pipeline. -/
structure Externals where
  sha256 : Bytes → Bytes
  edSign : Bytes → Bytes → Bytes
  edGetPublicKey : Bytes → Bytes
  edVerify : Bytes → Bytes → Bytes → Bool
  toBase58 : Bytes → Bytes
  fromBase58 : Bytes → Bytes
  b64encode : Bytes → Bytes
  b64decode : Bytes → Option Bytes
  jsonParse : Bytes → Option Bytes
  fetchOwnership : Bytes → FetchResponse
  generatedNonce : Bytes

/-- `hashForSigning` (src/crypto/crypto.ts): SHA-256 of the 4-byte
little-endian TAG followed by the Borsh serialization of the
`SignedPayload`. -/
def hashForSigning (ext : Externals) (tag : Nat) (p : SignedPayload) : Bytes :=
  ext.sha256 (u32le tag ++ serializeSignedPayload p)

/-- The `"ed25519:"` key-type prefix (src/crypto/crypto.ts). -/
def ED25519_PREFIX : Bytes := asciiBytes "ed25519:"

/-- Model of JS `String.prototype.split(sep)` on a single byte separator,
keeping empty segments. -/
def splitOnByte (sep : Nat) : Bytes → List Bytes
  | [] => [[]]
  | b :: rest =>
    match splitOnByte sep rest with
    | [] => [[]]
    | s :: ss => if b = sep then [] :: s :: ss else (b :: s) :: ss

/-- `verifySignature` (src/crypto/crypto.ts): only `"ed25519:"`-prefixed
keys are supported (anything else throws an unsupported-key-type error,
modelled as `false` here since `verify` wraps every throw in the same
signature error); the base58 body after the first `":"` is decoded and
checked with Ed25519. -/
def verifySignatureRun (ext : Externals) (payloadHash sigBytes pkString : Bytes) :
    Bool :=
  if ED25519_PREFIX.isPrefixOf pkString then
    ext.edVerify sigBytes payloadHash
      (ext.fromBase58 (((splitOnByte 58 pkString).get? 1).getD []))
  else false

/-! ## Verification pipeline (src/auth/verify.ts) -/

/-- JS string truthiness of an optional string: `undefined`/`null` and the
empty string are falsy. -/
def strTruthy : Option Bytes → Bool
  | none => false
  | some s => !s.isEmpty

/-- Model of `x || undefined`: the empty string is collapsed to absent. -/
def normalizeEmpty : Option Bytes → Option Bytes
  | none => none
  | some s => if s.isEmpty then none else some s

/-- `VerifyOptions` (src/types.ts) at runtime: each axis is a pair of
optional fields (exact value, custom predicate) plus `requireFullAccessKey`,
`nonceMaxAge` and `messageParser`. -/
structure VerifyOptions where
  requireFullAccessKey : Option Bool := none
  nonceMaxAge : Option Nat := none
  validateNonce : Option (Bytes → Bool) := none
  expectedRecipient : Option Bytes := none
  validateRecipient : Option (Bytes → Bool) := none
  expectedState : Option Bytes := none
  validateState : Option (Option Bytes → Bool) := none
  messageParser : Option (Bytes → Option Bytes) := none

/-- The error taxonomy of `verify` (src/auth/verify.ts), one constructor
per distinct thrown error; `nonceError none` is the custom-predicate
failure, `nonceError (some f)` wraps the default validator's reason;
`ownershipError true` is the API-failure sub-kind, `ownershipError false`
the key-not-associated sub-kind. -/
inductive VerifyError where
  | parseError
  | nonceError (reason : Option NonceFailure)
  | recipientError
  | stateError
  | ownershipError (apiFailure : Bool)
  | invalidSignatureEncoding
  | signatureError
  | messageParseError
deriving DecidableEq, Repr

/-- Observable calls to the two expensive collaborators, recorded so that
"never invoked" claims are statable: the ownership fetch with its URL, and
the signature-verification step with the reconstructed payload and its
hash. -/
inductive VerifyEvent where
  | fetchCall (url : Bytes)
  | sigVerifyCall (payload : SignedPayload) (hash : Bytes)
deriving DecidableEq, Repr

/-- Step 1 of `verify`: the custom nonce predicate if provided, otherwise
the default validator with `options.nonceMaxAge` (defaulted inside
`validateNonce`).  `none` is a pass, `some reason` the thrown error. -/
def nonceCheck (now : Int) (o : VerifyOptions) (signedNonce : Bytes) :
    Option (Option NonceFailure) :=
  match o.validateNonce with
  | some f => if f signedNonce then none else some none
  | none =>
    match validateNonceRun now signedNonce (o.nonceMaxAge.getD DEFAULT_MAX_AGE) with
    | .ok () => none
    | .error e => some (some e)

/-- Step 2 of `verify`: the recipient check.  The axis is enforced only when
`options.expectedRecipient` is truthy or `options.validateRecipient` is
present; the exact match is attempted first (guarded by the same
truthiness), then the custom predicate. -/
def recipientCheckPasses (o : VerifyOptions) (signedRecipient : Bytes) : Bool :=
  if strTruthy o.expectedRecipient || o.validateRecipient.isSome then
    if strTruthy o.expectedRecipient && decide (some signedRecipient = o.expectedRecipient) then
      true
    else
      match o.validateRecipient with
      | some f => f signedRecipient
      | none => false
  else true

/-- Step 3 of `verify`: the state check, same shape as the recipient check;
the custom predicate receives `tokenState ?? undefined`. -/
def stateCheckPasses (o : VerifyOptions) (tokenState : Option Bytes) : Bool :=
  if strTruthy o.expectedState || o.validateState.isSome then
    if strTruthy o.expectedState && decide (tokenState = o.expectedState) then
      true
    else
      match o.validateState with
      | some f => f tokenState
      | none => false
  else true

/-- The fastnear ownership-lookup URL built by `verifyPublicKeyOwner`:
testnet accounts go to the testnet host, and the `/all` suffix is appended
exactly when full-access keys are not required. -/
def ownershipUrl (accountId publicKey : Bytes) (requireFullAccessKey : Bool) :
    Bytes :=
  (if (asciiBytes ".testnet").isSuffixOf accountId then
    asciiBytes "https://test.api.fastnear.com"
  else asciiBytes "https://api.fastnear.com")
    ++ asciiBytes "/v0/public_key/" ++ publicKey
    ++ (if requireFullAccessKey then [] else asciiBytes "/all")

/-- Result of `verifyPublicKeyOwner` (success flag plus the api-failure
discriminator used to pick the error message). -/
structure OwnerCheckResult where
  success : Bool
  apiFailure : Bool
deriving DecidableEq, Repr

/-- `verifyPublicKeyOwner` (src/auth/verify.ts) given the fetch response:
transport/HTTP errors and malformed bodies are API failures; a well-formed
body succeeds exactly when it lists the account. -/
def ownerCheckOfResponse (resp : FetchResponse) (accountId : Bytes) :
    OwnerCheckResult :=
  match resp with
  | .httpError => ⟨false, true⟩
  | .okMalformed => ⟨false, true⟩
  | .okAccounts ids => if accountId ∈ ids then ⟨true, false⟩ else ⟨false, false⟩

/-- Step 5b of `verify`: reconstruction of the signed payload from the
decoded token's own fields (`payloadForVerification` in src/auth/verify.ts,
with `signedCallbackUrl || undefined`). -/
def reconstructSignedPayload (t : NearAuthTokenPayload) : SignedPayload :=
  { message := t.signed_message_content
    nonce := t.signed_nonce
    recipient := t.signed_recipient
    callbackUrl := normalizeEmpty t.signed_callback_url }

/-- Step 6 of `verify`: message parsing.  `messageToParse` is
`original_message_representation ?? signed_message_content`; a custom
parser wins; otherwise JSON.parse is used only when
`original_message_representation` is truthy. -/
def parseMessageStep (ext : Externals) (o : VerifyOptions)
    (t : NearAuthTokenPayload) : Option Bytes :=
  let messageToParse := t.original_message_representation.getD t.signed_message_content
  match o.messageParser with
  | some f => f messageToParse
  | none =>
    if strTruthy t.original_message_representation then
      ext.jsonParse messageToParse
    else some messageToParse

/-- `verify` (src/auth/verify.ts) on an already-parsed token, with the
ambient `Date.now()` passed as `now`.  Returns the result or the first
error, paired with the trace of collaborator calls made. -/
def verifyToken (ext : Externals) (now : Int) (t : NearAuthTokenPayload)
    (o : VerifyOptions) :
    Except VerifyError VerificationResult × List VerifyEvent :=
  match nonceCheck now o t.signed_nonce with
  | some reason => (.error (.nonceError reason), [])
  | none =>
    if !recipientCheckPasses o t.signed_recipient then (.error .recipientError, [])
    else if !stateCheckPasses o t.state then (.error .stateError, [])
    else
      let url := ownershipUrl t.account_id t.public_key
        (o.requireFullAccessKey.getD true)
      let ownerResult := ownerCheckOfResponse (ext.fetchOwnership url) t.account_id
      if !ownerResult.success then
        (.error (.ownershipError ownerResult.apiFailure), [.fetchCall url])
      else
        let payload := reconstructSignedPayload t
        let payloadHash := hashForSigning ext TAG payload
        match ext.b64decode t.signature with
        | none => (.error .invalidSignatureEncoding, [.fetchCall url])
        | some sigBytes =>
          let events := [VerifyEvent.fetchCall url,
            VerifyEvent.sigVerifyCall payload payloadHash]
          if verifySignatureRun ext payloadHash sigBytes t.public_key then
            match parseMessageStep ext o t with
            | some m =>
              (.ok { accountId := t.account_id
                     publicKey := t.public_key
                     message := m
                     callbackUrl := normalizeEmpty t.signed_callback_url
                     state := normalizeEmpty t.state }, events)
            | none => (.error .messageParseError, events)
          else (.error .signatureError, events)

/-- `parseAuthToken` (src/auth/parseAuthToken.ts): base64 decode then Borsh
deserialize. -/
def parseAuthToken (ext : Externals) (authToken : Bytes) :
    Option NearAuthTokenPayload :=
  ext.b64decode authToken >>= deserializeToken

/-- `verify` (src/auth/verify.ts) on the token string. -/
def verify (ext : Externals) (now : Int) (authTokenString : Bytes)
    (o : VerifyOptions) :
    Except VerifyError VerificationResult × List VerifyEvent :=
  match parseAuthToken ext authTokenString with
  | none => (.error .parseError, [])
  | some t => verifyToken ext now t o

/-! ## Signing (src/auth/sign.ts, key-pair path, string message) -/

/-- `SignOptions` (src/types.ts), specialized to the string-message,
key-pair-signer case the round-trip claim is about (`TMessage = string`,
for which `serializeMessage` is the identity and
`original_message_representation` stays absent). -/
structure SignOptions where
  signer : Bytes
  accountId : Option Bytes := none
  recipient : Bytes
  nonce : Option Bytes := none
  state : Option Bytes := none
  callbackUrl : Option Bytes := none
  message : Bytes
deriving Repr

/-- The distinct errors thrown by `sign` on the key-pair path. -/
inductive SignError where
  | badNonceLength
  | invalidSigner
  | missingAccountId
  | badKeyPrefix
  | badKeyLength
deriving DecidableEq, Repr

/-- `normalizeNonce` (src/auth/sign.ts): a provided `Uint8Array` nonce must
be exactly 32 bytes; an absent nonce falls back to `generateNonce()`
(ambient randomness, supplied by `Externals`). -/
def normalizeNonce (ext : Externals) (nonceInput : Option Bytes) :
    Except SignError Bytes :=
  match nonceInput with
  | some n => if n.length ≠ 32 then .error .badNonceLength else .ok n
  | none => .ok ext.generatedNonce

/-- `sign` (src/auth/sign.ts) on the key-pair path: build the
`SignedPayload` (with `callbackUrl || undefined`), hash it, Ed25519-sign
with the seed decoded from the `"ed25519:"`-prefixed base58 key (64-byte
keys keep their first 32 bytes, 32-byte keys are used as-is), then
assemble the `NearAuthTokenPayload` and encode it with `createAuthToken`
(Borsh + base64). -/
def sign (ext : Externals) (o : SignOptions) : Except SignError Bytes :=
  match normalizeNonce ext o.nonce with
  | .error e => .error e
  | .ok nonceBytes =>
    let serializedMessage := o.message
    if !ED25519_PREFIX.isPrefixOf o.signer then .error .invalidSigner
    else
      match o.accountId with
      | none => .error .missingAccountId
      | some signerId =>
        let payload : SignedPayload :=
          { message := serializedMessage
            nonce := nonceBytes
            recipient := o.recipient
            callbackUrl := normalizeEmpty o.callbackUrl }
        let payloadHash := hashForSigning ext TAG payload
        let privateKeyBytes := ext.fromBase58 (o.signer.drop ED25519_PREFIX.length)
        match (if privateKeyBytes.length = 64 then
            Except.ok (privateKeyBytes.take 32)
          else if privateKeyBytes.length = 32 then Except.ok privateKeyBytes
          else Except.error SignError.badKeyLength : Except SignError Bytes) with
        | .error e => .error e
        | .ok seed =>
          let rawSignature := ext.edSign payloadHash seed
          let signatureB64 := ext.b64encode rawSignature
          let publicKeyString := ED25519_PREFIX ++ ext.toBase58 (ext.edGetPublicKey seed)
          let tokenPayload : NearAuthTokenPayload :=
            { account_id := signerId
              public_key := publicKeyString
              signature := signatureB64
              signed_message_content := serializedMessage
              signed_nonce := nonceBytes
              signed_recipient := o.recipient
              signed_callback_url := normalizeEmpty o.callbackUrl
              state := normalizeEmpty o.state
              original_message_representation := none }
          .ok (ext.b64encode (serializeToken tokenPayload))

/-! ## Theorems -/

/-- C2: for every SignedPayload, the bytes hashed for signing equal SHA-256
of the 4-byte little-endian encoding of the fixed tag constant 2147484061
(2^31+413) concatenated with the Borsh serialization of the fields in the
fixed order message, 32-byte nonce, recipient, optional callbackUrl, where
an absent callbackUrl is encoded with the explicit Borsh option none flag
(a single 0 byte) and never as an empty string (whose encoding would
differ). -/
theorem canonical_encoding (ext : Externals) (p : SignedPayload) :
    hashForSigning ext TAG p =
      ext.sha256 ([157, 1, 0, 128]
        ++ (u32le p.message.length ++ p.message)
        ++ p.nonce
        ++ (u32le p.recipient.length ++ p.recipient)
        ++ (match p.callbackUrl with
            | none => [0]
            | some cb => 1 :: (u32le cb.length ++ cb)))
    ∧ u32le 2147484061 = [157, 1, 0, 128]
    ∧ (p.callbackUrl = none →
        serializeSignedPayload p ≠
          serializeSignedPayload { p with callbackUrl := some [] }) := by
  refine ⟨?_, by decide, ?_⟩
  · unfold hashForSigning serializeSignedPayload borshString borshOptionString u32le TAG
    cases p.callbackUrl <;> simp [List.append_assoc, borshString, u32le]
  · intro hcb h
    unfold serializeSignedPayload borshOptionString at h
    rw [hcb] at h
    simp at h

/-- C6: for every 32-byte nonce whose leading 16 bytes parse to timestamp
`t` and every `maxAge`, validateNonce succeeds exactly when
`0 ≤ now - t ≤ maxAge` (a nonce aged exactly `maxAge` is valid,
inclusive), fails with Expired when `now - t > maxAge`, and fails with
FutureNonce whenever `t > now` regardless of `maxAge`. -/
theorem nonce_freshness_boundary (now : Int) (nonce : Bytes) (maxAge : Nat)
    (t : Int) (hlen : nonce.length = 32)
    (hp : parseIntJS (stripLeadingZeros (nonce.take 16)) = some t) :
    (validateNonceRun now nonce maxAge = .ok () ↔
      0 ≤ now - t ∧ now - t ≤ (maxAge : Int))
    ∧ (now - t > (maxAge : Int) →
        validateNonceRun now nonce maxAge = .error .expired)
    ∧ (t > now → validateNonceRun now nonce maxAge = .error .futureNonce) := by
  unfold validateNonceRun
  rw [hlen, hp]
  simp only [ne_eq, not_true_eq_false, if_false]
  refine ⟨?_, ?_, ?_⟩
  · constructor
    · intro h
      by_cases h1 : now - t < 0 <;> by_cases h2 : now - t > (maxAge : Int) <;>
        simp [h1, h2] at h ⊢ <;> omega
    · intro ⟨h1, h2⟩
      have hn : ¬ now - t < 0 := by omega
      have he : ¬ now - t > (maxAge : Int) := by omega
      simp [hn, he]
  · intro h
    have hn : ¬ now - t < 0 := by omega
    simp [hn, h]
  · intro h
    have hn : now - t < 0 := by omega
    simp [hn]

/-- C6 witness: a nonce with timestamp 1000 at `now = 1500` and
`maxAge = 500` (aged exactly `maxAge`) validates successfully. -/
theorem nonce_freshness_boundary_witness :
    validateNonceRun 1500 (asciiBytes "0000000000001000" ++ List.replicate 16 48)
      500 = .ok () :=
  ((nonce_freshness_boundary 1500
      (asciiBytes "0000000000001000" ++ List.replicate 16 48) 500 1000
      (by decide) (by decide)).1).mpr (by decide)

/-- C7 counterexample: a 32-byte nonce whose leading 16 bytes are
`"-000000000000001"` parses to the negative integer -1 (so they do not
parse as a non-negative integer), yet validateNonce fails with Expired,
not InvalidTimestamp, at `now = 1760000000000` with the default max age. -/
theorem nonce_taxonomy_counterexample :
    parseIntJS (stripLeadingZeros
      ((asciiBytes "-000000000000001" ++ List.replicate 16 48).take 16)) =
        some (-1)
    ∧ (asciiBytes "-000000000000001" ++ List.replicate 16 48).length = 32
    ∧ validateNonceRun 1760000000000
        (asciiBytes "-000000000000001" ++ List.replicate 16 48)
        DEFAULT_MAX_AGE = .error .expired
    ∧ validateNonceRun 1760000000000
        (asciiBytes "-000000000000001" ++ List.replicate 16 48)
        DEFAULT_MAX_AGE ≠ .error .invalidTimestamp := by
  refine ⟨by decide, by decide, rfl, ?_⟩
  intro h
  rw [show validateNonceRun 1760000000000
      (asciiBytes "-000000000000001" ++ List.replicate 16 48)
      DEFAULT_MAX_AGE = .error .expired from rfl] at h
  simp at h

/-- C7 amended: validateNonce fails with InvalidLength if the nonce is not
exactly 32 bytes (checked first), and fails with InvalidTimestamp for
every 32-byte nonce whose leading 16 bytes do not parse as an integer at
all (parseInt yields NaN); leading bytes parsing as a negative integer
instead proceed to the age checks. -/
theorem nonce_error_taxonomy (now : Int) (nonce : Bytes) (maxAge : Nat) :
    (nonce.length ≠ 32 →
      validateNonceRun now nonce maxAge = .error .invalidLength)
    ∧ (nonce.length = 32 →
        parseIntJS (stripLeadingZeros (nonce.take 16)) = none →
        validateNonceRun now nonce maxAge = .error .invalidTimestamp) := by
  constructor
  · intro h
    unfold validateNonceRun
    simp [h]
  · intro hlen hp
    unfold validateNonceRun
    rw [hlen, hp]
    simp

/-- C7 amended witness: the empty nonce fails with InvalidLength, and a
32-byte nonce of `'a'` bytes fails with InvalidTimestamp. -/
theorem nonce_error_taxonomy_witness :
    validateNonceRun 1500 [] 500 = .error .invalidLength
    ∧ validateNonceRun 1500 (List.replicate 32 97) 500 =
        .error .invalidTimestamp :=
  ⟨(nonce_error_taxonomy 1500 [] 500).1 (by decide),
   (nonce_error_taxonomy 1500 (List.replicate 32 97) 500).2 (by decide) (by decide)⟩

/-- Every run of `verifyToken` produces one of three call traces: nothing
(a local check failed), the ownership fetch alone, or the fetch followed by
the signature step on the payload reconstructed from the token's own
fields. -/
theorem verifyToken_events_shape (ext : Externals) (now : Int)
    (t : NearAuthTokenPayload) (o : VerifyOptions) :
    (verifyToken ext now t o).2 = []
    ∨ (verifyToken ext now t o).2 =
        [.fetchCall (ownershipUrl t.account_id t.public_key
          (o.requireFullAccessKey.getD true))]
    ∨ (verifyToken ext now t o).2 =
        [.fetchCall (ownershipUrl t.account_id t.public_key
          (o.requireFullAccessKey.getD true)),
         .sigVerifyCall (reconstructSignedPayload t)
           (hashForSigning ext TAG (reconstructSignedPayload t))] := by
  unfold verifyToken
  repeat' split
  all_goals first
    | exact Or.inl rfl
    | exact Or.inr (Or.inl rfl)
    | exact Or.inr (Or.inr rfl)
    | simp [apply_ite Prod.snd]

/-- Any signature-step call in a `verifyToken` trace carries the payload
reconstructed from the token's own fields and its hash. -/
theorem sigVerifyCall_mem (ext : Externals) (now : Int)
    (t : NearAuthTokenPayload) (o : VerifyOptions) (p : SignedPayload)
    (h : Bytes)
    (hm : VerifyEvent.sigVerifyCall p h ∈ (verifyToken ext now t o).2) :
    p = reconstructSignedPayload t
      ∧ h = hashForSigning ext TAG (reconstructSignedPayload t) := by
  rcases verifyToken_events_shape ext now t o with hsh | hsh | hsh <;>
    rw [hsh] at hm <;> simp at hm
  exact hm

/-- C3: for every decoded token and any two options values, the payload
delivered to the signature step (and hence the hashed bytes) is the same in
both runs — it is built solely from the decoded token's own fields and
never from caller-supplied options. -/
theorem options_noninterference (ext : Externals) (now : Int)
    (t : NearAuthTokenPayload) (o1 o2 : VerifyOptions)
    (p1 p2 : SignedPayload) (h1 h2 : Bytes)
    (m1 : VerifyEvent.sigVerifyCall p1 h1 ∈ (verifyToken ext now t o1).2)
    (m2 : VerifyEvent.sigVerifyCall p2 h2 ∈ (verifyToken ext now t o2).2) :
    p1 = p2 ∧ h1 = h2 ∧ p1 = reconstructSignedPayload t := by
  obtain ⟨hp1, hh1⟩ := sigVerifyCall_mem ext now t o1 p1 h1 m1
  obtain ⟨hp2, hh2⟩ := sigVerifyCall_mem ext now t o2 p2 h2 m2
  exact ⟨hp1.trans hp2.symm, hh1.trans hh2.symm, hp1⟩

/-! Shared concrete fixtures for witnesses and counterexamples. -/

/-- A nonce whose embedded timestamp is 1700000000. -/
def sampleNonce : Bytes := asciiBytes "0000001700000000" ++ List.replicate 16 48

/-- An ambient clock equal to the sample nonce's timestamp. -/
def sampleNow : Int := 1700000000

/-- A concrete parsed token. -/
def sampleToken : NearAuthTokenPayload where
  account_id := asciiBytes "alice.near"
  public_key := asciiBytes "ed25519:pk"
  signature := asciiBytes "sig"
  signed_message_content := asciiBytes "login attempt"
  signed_nonce := sampleNonce
  signed_recipient := asciiBytes "app.near"
  signed_callback_url := none
  state := none
  original_message_representation := none

/-- Concrete external collaborators: trivial but law-abiding instantiations
of the out-of-scope primitives (identity base58/base64, toy Ed25519 whose
signatures are hash ++ seed, an ownership oracle that owns every key for
alice.near). -/
def sampleExt : Externals where
  sha256 := fun _ => List.replicate 32 0
  edSign := fun h s => h ++ s
  edGetPublicKey := fun s => s
  edVerify := fun sig h pk => sig == h ++ pk
  toBase58 := id
  fromBase58 := id
  b64encode := id
  b64decode := some
  jsonParse := fun _ => none
  fetchOwnership := fun _ => .okAccounts [asciiBytes "alice.near"]
  generatedNonce := List.replicate 32 48

/-- Like `sampleExt` but the ownership oracle returns an account list not
containing the claimed account. -/
def sampleExtNoOwner : Externals :=
  { sampleExt with fetchOwnership := fun _ => .okAccounts [asciiBytes "bob.near"] }

/-- C3 witness: the sample token reaches the signature step under two
different options values (no options, and an exact expected recipient), and
the reconstructed payloads agree. -/
theorem options_noninterference_witness :
    VerifyEvent.sigVerifyCall (reconstructSignedPayload sampleToken)
        (hashForSigning sampleExt TAG (reconstructSignedPayload sampleToken)) ∈
      (verifyToken sampleExt sampleNow sampleToken {}).2
    ∧ reconstructSignedPayload sampleToken = reconstructSignedPayload sampleToken := by
  have hm1 : VerifyEvent.sigVerifyCall (reconstructSignedPayload sampleToken)
      (hashForSigning sampleExt TAG (reconstructSignedPayload sampleToken)) ∈
      (verifyToken sampleExt sampleNow sampleToken {}).2 := by decide
  have hm2 : VerifyEvent.sigVerifyCall (reconstructSignedPayload sampleToken)
      (hashForSigning sampleExt TAG (reconstructSignedPayload sampleToken)) ∈
      (verifyToken sampleExt sampleNow sampleToken
        { expectedRecipient := some (asciiBytes "app.near") }).2 := by decide
  exact ⟨hm1, (options_noninterference sampleExt sampleNow sampleToken {}
    { expectedRecipient := some (asciiBytes "app.near") } _ _ _ _ hm1 hm2).1⟩

/-- C4: whenever the nonce check fails (the caller's custom predicate or
the default freshness validator), verify fails with that NonceError and
makes no collaborator calls at all — the ownership lookup and the
signature-verification step are never invoked, whatever the external
collaborators (in particular even if the token's signature is
cryptographically valid). -/
theorem nonce_failfast (ext : Externals) (now : Int)
    (t : NearAuthTokenPayload) (o : VerifyOptions)
    (reason : Option NonceFailure)
    (h : nonceCheck now o t.signed_nonce = some reason) :
    (verifyToken ext now t o).1 = .error (.nonceError reason)
    ∧ (verifyToken ext now t o).2 = [] := by
  unfold verifyToken
  rw [h]
  exact ⟨rfl, rfl⟩

/-- C4 witness: a token with a stale nonce (timestamp 1, checked at the
sample clock) fails with the Expired nonce error and an empty call trace,
under externals for which its signature would verify. -/
theorem nonce_failfast_witness :
    (verifyToken sampleExt sampleNow
        { sampleToken with
            signed_nonce := asciiBytes "0000000000000001" ++ List.replicate 16 48 }
        {}).1 = .error (.nonceError (some .expired))
    ∧ (verifyToken sampleExt sampleNow
        { sampleToken with
            signed_nonce := asciiBytes "0000000000000001" ++ List.replicate 16 48 }
        {}).2 = [] :=
  nonce_failfast sampleExt sampleNow
    { sampleToken with
        signed_nonce := asciiBytes "0000000000000001" ++ List.replicate 16 48 }
    {} (some .expired) (by decide)

/-- C5: when the ownership lookup succeeds but the claimed account is not
in the returned account list, verify fails with the key-not-associated
sub-kind of OwnershipError (`apiFailure = false`) and the
signature-verification step is never invoked — whatever the signature
collaborator would have answered. -/
theorem ownership_gate (ext : Externals) (now : Int)
    (t : NearAuthTokenPayload) (o : VerifyOptions) (ids : List Bytes)
    (hn : nonceCheck now o t.signed_nonce = none)
    (hr : recipientCheckPasses o t.signed_recipient = true)
    (hs : stateCheckPasses o t.state = true)
    (hf : ext.fetchOwnership (ownershipUrl t.account_id t.public_key
      (o.requireFullAccessKey.getD true)) = .okAccounts ids)
    (hni : t.account_id ∉ ids) :
    (verifyToken ext now t o).1 = .error (.ownershipError false)
    ∧ ∀ p h, VerifyEvent.sigVerifyCall p h ∉ (verifyToken ext now t o).2 := by
  unfold verifyToken
  rw [hn]
  simp only [hr, hs, Bool.not_true, Bool.false_eq_true, if_false, hf,
    ownerCheckOfResponse]
  simp [hni]

/-- C5 witness: the sample token against an oracle that returns only
bob.near fails with the key-not-associated ownership error and never
reaches the signature step, although its signature would have verified. -/
theorem ownership_gate_witness :
    (verifyToken sampleExtNoOwner sampleNow sampleToken {}).1 =
      .error (.ownershipError false)
    ∧ VerifyEvent.sigVerifyCall (reconstructSignedPayload sampleToken)
        (hashForSigning sampleExtNoOwner TAG (reconstructSignedPayload sampleToken)) ∉
      (verifyToken sampleExtNoOwner sampleNow sampleToken {}).2 := by
  obtain ⟨h1, h2⟩ := ownership_gate sampleExtNoOwner sampleNow sampleToken {}
    [asciiBytes "bob.near"] (by decide) (by decide) (by decide) rfl (by decide)
  exact ⟨h1, h2 _ _⟩

/-- C9 (implicit): passing the empty string as expectedRecipient with no
validateRecipient (and likewise the empty string as expectedState) makes
verify skip the axis entirely — the checks pass for every token value, and
verify never fails with a recipient or state error — because the
enforcement gate tests string truthiness, not presence of the option. -/
theorem empty_expected_skips_axis (ext : Externals) (now : Int)
    (t : NearAuthTokenPayload) (o : VerifyOptions)
    (h1 : o.expectedRecipient = some []) (h2 : o.validateRecipient = none)
    (h3 : o.expectedState = some []) (h4 : o.validateState = none) :
    recipientCheckPasses o t.signed_recipient = true
    ∧ stateCheckPasses o t.state = true
    ∧ (verifyToken ext now t o).1 ≠ .error .recipientError
    ∧ (verifyToken ext now t o).1 ≠ .error .stateError := by
  have hr : recipientCheckPasses o t.signed_recipient = true := by
    simp [recipientCheckPasses, h1, h2, strTruthy]
  have hs : stateCheckPasses o t.state = true := by
    simp [stateCheckPasses, h3, h4, strTruthy]
  refine ⟨hr, hs, ?_, ?_⟩ <;>
  · unfold verifyToken
    cases hnc : nonceCheck now o t.signed_nonce with
    | some r => simp
    | none =>
      simp only [hr, hs, Bool.not_true, Bool.false_eq_true, if_false]
      repeat' split
      all_goals simp

/-- C9 witness: with empty-string expectedRecipient and expectedState and
no predicates, the checks pass on the sample token (whose recipient is
app.near, not the empty string). -/
theorem empty_expected_skips_axis_witness :
    recipientCheckPasses
        { expectedRecipient := some [], expectedState := some [] }
        sampleToken.signed_recipient = true
    ∧ stateCheckPasses
        { expectedRecipient := some [], expectedState := some [] }
        sampleToken.state = true :=
  ⟨(empty_expected_skips_axis sampleExt sampleNow sampleToken
      { expectedRecipient := some [], expectedState := some [] }
      rfl rfl rfl rfl).1,
   (empty_expected_skips_axis sampleExt sampleNow sampleToken
      { expectedRecipient := some [], expectedState := some [] }
      rfl rfl rfl rfl).2.1⟩

/-- C10 (implicit): when options omit requireFullAccessKey it defaults to
true and the run queries the full-access-only endpoint — the URL without
the `/all` suffix; the URL with requireFullAccessKey = false is exactly the
same URL with `/all` appended. -/
theorem requireFullAccessKey_default (ext : Externals) (now : Int)
    (t : NearAuthTokenPayload) (o : VerifyOptions)
    (hd : o.requireFullAccessKey = none)
    (hn : nonceCheck now o t.signed_nonce = none)
    (hr : recipientCheckPasses o t.signed_recipient = true)
    (hs : stateCheckPasses o t.state = true) :
    VerifyEvent.fetchCall (ownershipUrl t.account_id t.public_key true) ∈
      (verifyToken ext now t o).2
    ∧ ownershipUrl t.account_id t.public_key true =
        (if (asciiBytes ".testnet").isSuffixOf t.account_id then
          asciiBytes "https://test.api.fastnear.com"
        else asciiBytes "https://api.fastnear.com")
          ++ asciiBytes "/v0/public_key/" ++ t.public_key
    ∧ ownershipUrl t.account_id t.public_key false =
        ownershipUrl t.account_id t.public_key true ++ asciiBytes "/all" := by
  refine ⟨?_, ?_, ?_⟩
  · have hshape := verifyToken_events_shape ext now t o
    rw [hd] at hshape
    have hne : (verifyToken ext now t o).2 ≠ [] := by
      unfold verifyToken
      rw [hn]
      simp only [hr, hs, Bool.not_true, Bool.false_eq_true, if_false]
      repeat' split
      all_goals simp
    rcases hshape with hsh | hsh | hsh
    · exact absurd hsh hne
    · rw [hsh]; simp [Option.getD]
    · rw [hsh]; simp [Option.getD]
  · simp [ownershipUrl]
  · simp [ownershipUrl, List.append_assoc]

/-- C10 witness: the sample token with empty options triggers a fetch of
the mainnet full-access URL (no `/all`). -/
theorem requireFullAccessKey_default_witness :
    VerifyEvent.fetchCall
        (ownershipUrl sampleToken.account_id sampleToken.public_key true) ∈
      (verifyToken sampleExt sampleNow sampleToken {}).2 :=
  (requireFullAccessKey_default sampleExt sampleNow sampleToken {}
    rfl (by decide) (by decide) (by decide)).1

/-- A token identical to `sampleToken` except that its recipient is
other.near and its signature is the one `sampleExt`'s toy Ed25519 accepts
(hash ++ public key bytes). -/
def crossRecipientToken : NearAuthTokenPayload :=
  { sampleToken with
      signed_recipient := asciiBytes "other.near"
      signature := List.replicate 32 0 ++ [112, 107] }

/-- Options supplying BOTH an exact expected recipient and a custom
recipient predicate — the combination the spec says should be rejected. -/
def bothRecipientOptions : VerifyOptions :=
  { expectedRecipient := some (asciiBytes "app.near")
    validateRecipient := some (fun r => r == asciiBytes "other.near") }

/-- C8 counterexample: options carrying both an exact expected recipient
and a custom recipient predicate are not rejected — no ConfigError exists
at runtime — and verification proceeds to a successful result, the axis
passing through the predicate after the exact match fails.  The
combination is silently accepted at verification time. -/
theorem config_error_counterexample :
    bothRecipientOptions.expectedRecipient = some (asciiBytes "app.near")
    ∧ (bothRecipientOptions.validateRecipient).isSome = true
    ∧ recipientCheckPasses bothRecipientOptions (asciiBytes "other.near") = true
    ∧ (verifyToken sampleExt sampleNow crossRecipientToken
        bothRecipientOptions).1 =
      .ok { accountId := asciiBytes "alice.near"
            publicKey := asciiBytes "ed25519:pk"
            message := asciiBytes "login attempt"
            callbackUrl := none
            state := none } :=
  ⟨rfl, rfl, by decide, rfl⟩

/-- C8 amended: the exclusiveness of exact-value and predicate options is
enforced only by the TypeScript type system at construction; at runtime no
ConfigError exists and verify accepts options carrying both: the nonce
axis runs the custom predicate and ignores nonceMaxAge entirely, and the
recipient and state axes pass if either the exact match or the predicate
succeeds. -/
theorem both_options_runtime_semantics (o : VerifyOptions) (now : Int)
    (n sr : Bytes) (st : Option Bytes)
    (f g : Bytes → Bool) (k : Option Bytes → Bool)
    (hf : o.validateNonce = some f)
    (hg : o.validateRecipient = some g)
    (hk : o.validateState = some k) :
    nonceCheck now o n = (if f n then none else some none)
    ∧ recipientCheckPasses o sr =
        ((strTruthy o.expectedRecipient
            && decide (some sr = o.expectedRecipient)) || g sr)
    ∧ stateCheckPasses o st =
        ((strTruthy o.expectedState && decide (st = o.expectedState)) || k st) := by
  refine ⟨?_, ?_, ?_⟩
  · simp [nonceCheck, hf]
  · rw [recipientCheckPasses, hg]
    by_cases he : strTruthy o.expectedRecipient && decide (some sr = o.expectedRecipient) <;>
      simp [he]
  · rw [stateCheckPasses, hk]
    by_cases he : strTruthy o.expectedState && decide (st = o.expectedState) <;>
      simp [he]

/-- C8 amended witness: concrete options with both members of every axis
pair set are accepted with the stated semantics. -/
theorem both_options_runtime_semantics_witness :
    nonceCheck 0
      { nonceMaxAge := some 5, validateNonce := some (fun _ => true)
        expectedRecipient := some (asciiBytes "app.near")
        validateRecipient := some (fun r => r == asciiBytes "other.near")
        expectedState := some (asciiBytes "s")
        validateState := some (fun _ => false) } [] = none
    ∧ recipientCheckPasses
      { nonceMaxAge := some 5, validateNonce := some (fun _ => true)
        expectedRecipient := some (asciiBytes "app.near")
        validateRecipient := some (fun r => r == asciiBytes "other.near")
        expectedState := some (asciiBytes "s")
        validateState := some (fun _ => false) } (asciiBytes "other.near") = true
    ∧ stateCheckPasses
      { nonceMaxAge := some 5, validateNonce := some (fun _ => true)
        expectedRecipient := some (asciiBytes "app.near")
        validateRecipient := some (fun r => r == asciiBytes "other.near")
        expectedState := some (asciiBytes "s")
        validateState := some (fun _ => false) } (some (asciiBytes "s")) = true := by
  obtain ⟨h1, h2, h3⟩ := both_options_runtime_semantics
    { nonceMaxAge := some 5, validateNonce := some (fun _ => true)
      expectedRecipient := some (asciiBytes "app.near")
      validateRecipient := some (fun r => r == asciiBytes "other.near")
      expectedState := some (asciiBytes "s")
      validateState := some (fun _ => false) } 0 [] (asciiBytes "other.near")
    (some (asciiBytes "s")) (fun _ => true)
    (fun r => r == asciiBytes "other.near") (fun _ => false) rfl rfl rfl
  exact ⟨h1.trans (by decide), h2.trans (by decide), h3.trans (by decide)⟩

/-! ## Token codec round trip -/

theorem readU32_u32le (n : Nat) (rest : Bytes) (h : n < 4294967296) :
    readU32 (u32le n ++ rest) = some (n, rest) := by
  simp only [u32le, List.cons_append, List.nil_append, readU32,
    Option.some.injEq, Prod.mk.injEq, and_true]
  omega

theorem readBytesN_exact (n : Nat) (s rest : Bytes) (h : s.length = n) :
    readBytesN n (s ++ rest) = some (s, rest) := by
  subst h
  simp only [readBytesN, List.length_append, Nat.le_add_right, if_pos,
    List.take_left, List.drop_left]

theorem readString_borshString (s rest : Bytes) (h : s.length < 4294967296) :
    readString (borshString s ++ rest) = some (s, rest) := by
  unfold readString borshString
  rw [List.append_assoc, readU32_u32le s.length (s ++ rest) h]
  simpa using readBytesN_exact s.length s rest rfl

theorem readOptionString_roundtrip (o : Option Bytes) (rest : Bytes)
    (h : (o.getD []).length < 4294967296) :
    readOptionString (borshOptionString o ++ rest) = some (o, rest) := by
  cases o with
  | none => rfl
  | some s =>
    simp only [borshOptionString, List.cons_append, readOptionString]
    rw [readString_borshString s rest (by simpa using h)]
    rfl

/-- Field-size side conditions under which the Borsh token codec round
trips: string lengths fit in a u32 and the nonce is exactly 32 bytes. -/
def tokenSizeOk (t : NearAuthTokenPayload) : Bool :=
  decide (t.account_id.length < 4294967296)
    && decide (t.public_key.length < 4294967296)
    && decide (t.signature.length < 4294967296)
    && decide (t.signed_message_content.length < 4294967296)
    && decide (t.signed_nonce.length = 32)
    && decide (t.signed_recipient.length < 4294967296)
    && decide ((t.signed_callback_url.getD []).length < 4294967296)
    && decide ((t.state.getD []).length < 4294967296)
    && decide ((t.original_message_representation.getD []).length < 4294967296)

/-- The token codec round trip: deserializing a serialized
`NearAuthTokenPayload` recovers it exactly. -/
theorem deserializeToken_serializeToken (t : NearAuthTokenPayload)
    (h : tokenSizeOk t = true) :
    deserializeToken (serializeToken t) = some t := by
  simp only [tokenSizeOk, Bool.and_eq_true, decide_eq_true_eq] at h
  obtain ⟨⟨⟨⟨⟨⟨⟨⟨h1, h2⟩, h3⟩, h4⟩, h5⟩, h6⟩, h7⟩, h8⟩, h9⟩ := h
  unfold deserializeToken serializeToken
  simp only [List.append_assoc]
  rw [readString_borshString _ _ h1]
  simp only [Option.bind_eq_bind, Option.some_bind]
  rw [readString_borshString _ _ h2]
  simp only [Option.bind_eq_bind, Option.some_bind]
  rw [readString_borshString _ _ h3]
  simp only [Option.bind_eq_bind, Option.some_bind]
  rw [readString_borshString _ _ h4]
  simp only [Option.bind_eq_bind, Option.some_bind]
  rw [readBytesN_exact 32 _ _ h5]
  simp only [Option.bind_eq_bind, Option.some_bind]
  rw [readString_borshString _ _ h6]
  simp only [Option.bind_eq_bind, Option.some_bind]
  rw [show borshOptionString t.signed_callback_url
        ++ (borshOptionString t.state
          ++ borshOptionString t.original_message_representation)
      = borshOptionString t.signed_callback_url
        ++ (borshOptionString t.state
          ++ (borshOptionString t.original_message_representation ++ []))
    from by simp]
  rw [readOptionString_roundtrip _ _ h7]
  simp only [Option.bind_eq_bind, Option.some_bind]
  rw [readOptionString_roundtrip _ _ h8]
  simp only [Option.bind_eq_bind, Option.some_bind]
  rw [readOptionString_roundtrip _ _ h9]
  simp only [Option.bind_eq_bind, Option.some_bind, List.isEmpty_nil, if_pos]

/-! ## Round-trip helper lemmas -/

theorem isPrefixOf_append_self (l r : Bytes) : l.isPrefixOf (l ++ r) = true := by
  simp [List.isPrefixOf_iff_prefix]

theorem splitOnByte_no_sep (sep : Nat) (l : Bytes) (h : sep ∉ l) :
    splitOnByte sep l = [l] := by
  induction l with
  | nil => rfl
  | cons a t ih =>
    simp only [List.mem_cons, not_or] at h
    obtain ⟨h1, h2⟩ := h
    rw [splitOnByte, ih h2]
    exact if_neg (fun hh : a = sep => h1 hh.symm)

theorem splitOnByte_ed25519_prefix (x : Bytes) (h : 58 ∉ x) :
    splitOnByte 58 (ED25519_PREFIX ++ x) = [asciiBytes "ed25519", x] := by
  rw [show ED25519_PREFIX = [101, 100, 50, 53, 53, 49, 57, 58] from by decide,
    show asciiBytes "ed25519" = [101, 100, 50, 53, 53, 49, 57] from by decide]
  simp [splitOnByte, splitOnByte_no_sep 58 x h]

theorem normalizeEmpty_idem (o : Option Bytes) :
    normalizeEmpty (normalizeEmpty o) = normalizeEmpty o := by
  cases o with
  | none => rfl
  | some s =>
    by_cases hs : s.isEmpty <;> simp [normalizeEmpty, hs]

theorem recipientCheck_exact_self (o : VerifyOptions) (r : Bytes)
    (h1 : o.expectedRecipient = some r) (h2 : o.validateRecipient = none) :
    recipientCheckPasses o r = true := by
  by_cases hr : r.isEmpty <;>
    simp [recipientCheckPasses, h1, h2, strTruthy, hr]

theorem stateCheck_normalized_self (o : VerifyOptions)
    (h2 : o.validateState = none) :
    stateCheckPasses o (normalizeEmpty o.expectedState) = true := by
  cases hst : o.expectedState with
  | none => simp [stateCheckPasses, hst, h2, strTruthy, normalizeEmpty]
  | some s =>
    by_cases hs : s.isEmpty <;>
      simp [stateCheckPasses, hst, h2, strTruthy, normalizeEmpty, hs]

/-- The happy path of `verifyToken`: a token whose nonce is fresh, whose
recipient matches the expected one exactly, whose state matches the
normalized expected state, whose key the oracle associates with the
account, and whose signature verifies, yields the result built from the
token's fields. -/
theorem verifyToken_happy (ext : Externals) (now : Int)
    (tp : NearAuthTokenPayload) (o : VerifyOptions) (ids : List Bytes)
    (rawSig : Bytes)
    (hval : o.validateNonce = none) (hmax : o.nonceMaxAge = none)
    (hvr : o.validateRecipient = none) (hvs : o.validateState = none)
    (hmp : o.messageParser = none) (hrfa : o.requireFullAccessKey = none)
    (her : o.expectedRecipient = some tp.signed_recipient)
    (hes : tp.state = normalizeEmpty o.expectedState)
    (hfresh : validateNonceRun now tp.signed_nonce DEFAULT_MAX_AGE = .ok ())
    (hfetch : ext.fetchOwnership (ownershipUrl tp.account_id tp.public_key true)
      = .okAccounts ids)
    (hmem : tp.account_id ∈ ids)
    (hsig : ext.b64decode tp.signature = some rawSig)
    (hsigok : verifySignatureRun ext
      (hashForSigning ext TAG (reconstructSignedPayload tp)) rawSig
      tp.public_key = true)
    (homr : tp.original_message_representation = none) :
    (verifyToken ext now tp o).1 =
      .ok { accountId := tp.account_id
            publicKey := tp.public_key
            message := tp.signed_message_content
            callbackUrl := normalizeEmpty tp.signed_callback_url
            state := normalizeEmpty tp.state } := by
  have hnc : nonceCheck now o tp.signed_nonce = none := by
    simp [nonceCheck, hval, hmax, hfresh]
  have hr : recipientCheckPasses o tp.signed_recipient = true :=
    recipientCheck_exact_self o tp.signed_recipient her hvr
  have hs : stateCheckPasses o tp.state = true := by
    rw [hes]; exact stateCheck_normalized_self o hvs
  unfold verifyToken
  rw [hnc]
  simp only [hr, hs, Bool.not_true, Bool.false_eq_true, if_false, hrfa,
    Option.getD_none, hfetch, ownerCheckOfResponse, if_pos hmem, hsig,
    Bool.not_false, hsigok, if_pos, parseMessageStep, hmp, homr,
    Option.getD_some, Option.getD_none, strTruthy, Bool.false_eq_true]

/-- The Ed25519 seed `sign` derives from a decoded base58 key body: 64-byte
decoded keys keep their first 32 bytes, and for 32-byte keys `take 32` is
the whole key. -/
def seedOfKey (ext : Externals) (kb58 : Bytes) : Bytes :=
  (ext.fromBase58 kb58).take 32

/-- The public key string `sign` derives and embeds in the token. -/
def publicKeyStringOf (ext : Externals) (kb58 : Bytes) : Bytes :=
  ED25519_PREFIX ++ ext.toBase58 (ext.edGetPublicKey (seedOfKey ext kb58))

/-- The token payload `sign` assembles on the key-pair path. -/
def signedTokenPayload (ext : Externals) (kb58 aid : Bytes) (p : SignedPayload)
    (st : Option Bytes) : NearAuthTokenPayload where
  account_id := aid
  public_key := publicKeyStringOf ext kb58
  signature := ext.b64encode (ext.edSign
    (hashForSigning ext TAG
      { message := p.message, nonce := p.nonce, recipient := p.recipient
        callbackUrl := normalizeEmpty p.callbackUrl })
    (seedOfKey ext kb58))
  signed_message_content := p.message
  signed_nonce := p.nonce
  signed_recipient := p.recipient
  signed_callback_url := normalizeEmpty p.callbackUrl
  state := normalizeEmpty st
  original_message_representation := none

/-- `sign` on the key-pair path with a well-formed 32-byte nonce and a
32- or 64-byte decoded key succeeds and produces exactly the base64 of the
Borsh encoding of `signedTokenPayload`. -/
theorem sign_ok (ext : Externals) (kb58 aid : Bytes) (p : SignedPayload)
    (st : Option Bytes)
    (hkey : (ext.fromBase58 kb58).length = 64 ∨ (ext.fromBase58 kb58).length = 32)
    (hnonce : p.nonce.length = 32) :
    sign ext
      { signer := ED25519_PREFIX ++ kb58
        accountId := some aid
        recipient := p.recipient
        nonce := some p.nonce
        state := st
        callbackUrl := p.callbackUrl
        message := p.message } =
    .ok (ext.b64encode (serializeToken (signedTokenPayload ext kb58 aid p st))) := by
  have hseed : (if (ext.fromBase58 kb58).length = 64 then
      Except.ok ((ext.fromBase58 kb58).take 32)
    else if (ext.fromBase58 kb58).length = 32 then
      Except.ok (ext.fromBase58 kb58)
    else Except.error SignError.badKeyLength : Except SignError Bytes) =
      Except.ok (seedOfKey ext kb58) := by
    rcases hkey with hk | hk
    · rw [if_pos hk]; rfl
    · rw [if_neg (by omega), if_pos hk]
      unfold seedOfKey
      rw [List.take_of_length_le (le_of_eq hk)]
  unfold sign normalizeNonce
  simp only [hnonce, ne_eq, not_true_eq_false, if_false,
    isPrefixOf_append_self, Bool.not_true, Bool.false_eq_true, List.drop_left,
    hseed]
  rfl

/-- C1 amended: for every SignedPayload whose nonce is 32 bytes and fresh,
and every Ed25519 keypair whose derived public key the ownership oracle
associates with the claimed account (with the usual external-collaborator
laws for base64, base58 and Ed25519, and field sizes fitting the u32 Borsh
length prefixes), sign succeeds and verify of the produced token with
matching options succeeds, returning a VerificationResult whose accountId,
publicKey and message equal the inputs given to sign, and whose
callbackUrl and state equal the inputs after empty-string normalization:
an empty-string callbackUrl or state is returned as absent, other values
exactly. -/
theorem sign_verify_roundtrip (ext : Externals) (now : Int)
    (kb58 aid : Bytes) (p : SignedPayload) (st : Option Bytes)
    (ids : List Bytes)
    (hb64 : ∀ x, ext.b64decode (ext.b64encode x) = some x)
    (hed : ∀ h s, ext.edVerify (ext.edSign h s) h (ext.edGetPublicKey s) = true)
    (hb58 : ext.fromBase58 (ext.toBase58 (ext.edGetPublicKey (seedOfKey ext kb58)))
      = ext.edGetPublicKey (seedOfKey ext kb58))
    (hnocolon : 58 ∉ ext.toBase58 (ext.edGetPublicKey (seedOfKey ext kb58)))
    (hkey : (ext.fromBase58 kb58).length = 64 ∨ (ext.fromBase58 kb58).length = 32)
    (hnonce : p.nonce.length = 32)
    (hfresh : validateNonceRun now p.nonce DEFAULT_MAX_AGE = .ok ())
    (hfetch : ext.fetchOwnership
      (ownershipUrl aid (publicKeyStringOf ext kb58) true) = .okAccounts ids)
    (hmem : aid ∈ ids)
    (hsz : tokenSizeOk (signedTokenPayload ext kb58 aid p st) = true) :
    sign ext
      { signer := ED25519_PREFIX ++ kb58
        accountId := some aid
        recipient := p.recipient
        nonce := some p.nonce
        state := st
        callbackUrl := p.callbackUrl
        message := p.message } =
      .ok (ext.b64encode (serializeToken (signedTokenPayload ext kb58 aid p st)))
    ∧ (verify ext now
        (ext.b64encode (serializeToken (signedTokenPayload ext kb58 aid p st)))
        { expectedRecipient := some p.recipient, expectedState := st }).1 =
      .ok { accountId := aid
            publicKey := publicKeyStringOf ext kb58
            message := p.message
            callbackUrl := normalizeEmpty p.callbackUrl
            state := normalizeEmpty st } := by
  refine ⟨sign_ok ext kb58 aid p st hkey hnonce, ?_⟩
  have hreconstruct : reconstructSignedPayload (signedTokenPayload ext kb58 aid p st) =
      { message := p.message, nonce := p.nonce, recipient := p.recipient
        callbackUrl := normalizeEmpty p.callbackUrl } := by
    simp [reconstructSignedPayload, signedTokenPayload, normalizeEmpty_idem]
  have hsigok : verifySignatureRun ext
      (hashForSigning ext TAG
        (reconstructSignedPayload (signedTokenPayload ext kb58 aid p st)))
      (ext.edSign
        (hashForSigning ext TAG
          { message := p.message, nonce := p.nonce, recipient := p.recipient
            callbackUrl := normalizeEmpty p.callbackUrl })
        (seedOfKey ext kb58))
      (signedTokenPayload ext kb58 aid p st).public_key = true := by
    rw [hreconstruct]
    show verifySignatureRun ext _ _ (publicKeyStringOf ext kb58) = true
    unfold verifySignatureRun publicKeyStringOf
    rw [if_pos (by simp [List.isPrefixOf_iff_prefix]),
      splitOnByte_ed25519_prefix _ hnocolon]
    simp only [List.get?_cons_succ, List.get?_cons_zero, Option.getD_some]
    rw [hb58]
    exact hed _ _
  unfold verify parseAuthToken
  rw [hb64]
  simp only [Option.bind_eq_bind, Option.some_bind]
  rw [deserializeToken_serializeToken _ hsz]
  rw [verifyToken_happy ext now (signedTokenPayload ext kb58 aid p st)
    { expectedRecipient := some p.recipient, expectedState := st } ids
    (ext.edSign
      (hashForSigning ext TAG
        { message := p.message, nonce := p.nonce, recipient := p.recipient
          callbackUrl := normalizeEmpty p.callbackUrl })
      (seedOfKey ext kb58))
    rfl rfl rfl rfl rfl rfl rfl rfl hfresh hfetch hmem (hb64 _) hsigok rfl]
  simp [signedTokenPayload, normalizeEmpty_idem]

/-- C1 amended witness: a concrete round trip through sign and verify with
the toy external collaborators succeeds and returns the signed fields. -/
theorem sign_verify_roundtrip_witness :
    (verify sampleExt sampleNow
      (sampleExt.b64encode (serializeToken (signedTokenPayload sampleExt
        (List.replicate 32 7) (asciiBytes "alice.near")
        { message := asciiBytes "login attempt", nonce := sampleNonce
          recipient := asciiBytes "app.near", callbackUrl := none } none)))
      { expectedRecipient := some (asciiBytes "app.near")
        expectedState := none }).1 =
    .ok { accountId := asciiBytes "alice.near"
          publicKey := publicKeyStringOf sampleExt (List.replicate 32 7)
          message := asciiBytes "login attempt"
          callbackUrl := none
          state := none } :=
  (sign_verify_roundtrip sampleExt sampleNow (List.replicate 32 7)
    (asciiBytes "alice.near")
    { message := asciiBytes "login attempt", nonce := sampleNonce
      recipient := asciiBytes "app.near", callbackUrl := none } none
    [asciiBytes "alice.near"]
    (fun _ => rfl) (fun h s => by simp [sampleExt]) rfl (by decide)
    (Or.inr (by decide)) (by decide) rfl rfl (by decide) (by decide)).2

/-- Sign options whose callbackUrl is the empty string — a valid
SignedPayload input on which the exact round-trip equality fails. -/
def emptyCallbackSignOptions : SignOptions where
  signer := ED25519_PREFIX ++ List.replicate 32 7
  accountId := some (asciiBytes "alice.near")
  recipient := asciiBytes "app.near"
  nonce := some sampleNonce
  state := none
  callbackUrl := some []
  message := asciiBytes "login attempt"

set_option maxRecDepth 100000 in
/-- C1 counterexample: signing with an empty-string callbackUrl and
verifying the produced token succeeds, but the returned callbackUrl is
absent, not the empty string given to sign — `callbackUrl || undefined`
collapses the empty string before hashing and storing — so the claimed
field-for-field equality with the inputs fails. -/
theorem roundtrip_counterexample :
    emptyCallbackSignOptions.callbackUrl = some []
    ∧ ∃ token, sign sampleExt emptyCallbackSignOptions = .ok token
      ∧ (verify sampleExt sampleNow token
          { expectedRecipient := some (asciiBytes "app.near") }).1 =
        .ok { accountId := asciiBytes "alice.near"
              publicKey := publicKeyStringOf sampleExt (List.replicate 32 7)
              message := asciiBytes "login attempt"
              callbackUrl := none
              state := none }
      ∧ (none : Option Bytes) ≠ emptyCallbackSignOptions.callbackUrl :=
  ⟨rfl,
   sampleExt.b64encode (serializeToken (signedTokenPayload sampleExt
     (List.replicate 32 7) (asciiBytes "alice.near")
     { message := asciiBytes "login attempt", nonce := sampleNonce
       recipient := asciiBytes "app.near", callbackUrl := some [] } none)),
   rfl, rfl, by simp [emptyCallbackSignOptions]⟩

end NearSignVerify
